import Mathlib

/-!
Verification development for the gasbox-diagnostics repository
(src/gas_sensor_plot.py).  The Python functions relevant to the claims are
shallowly embedded as executable Lean definitions:

* `get_plot_params` (lines 158-229): a left-to-right scan over the column
  names building `plot_count`, `counted_list` and `plot_num`.
  The Python source tests membership with the expressions
  `if 'Temp' or 'RH' in val:` and `if 'Gas' or 'CO2' in val:` (lines 183 and
  211).  In Python these evaluate the truthiness of the first string literal,
  which is always true, so the Temp/RH block and the Gas/CO2 block execute for
  every column name whatever it is.  The embedding reproduces that behaviour
  faithfully.
* `make_text` (lines 96-155): fixed-width text report with per-row derived
  totals.
* the PM branch of `plot_data` (lines 285-295): which columns get a series in
  the PM panel.
* the run-driver path helpers `get_date`, `get_file`, `set_directory`.

Strings are Lean `String`s, numeric cell values are exact rationals `ℚ`
(the Python floats only ever flow through sums and 2-decimal formatting in the
properties below), and Python exceptions are modelled with `Except String`.
-/

/-- Python substring membership `needle in hay` restricted to strings:
`subAt n l` is true iff `n` occurs as a contiguous sublist of `l`. -/
def subAt (n : List Char) : List Char → Bool
  | [] => n.isEmpty
  | h :: t => n.isPrefixOf (h :: t) || subAt n t

/-- Python `needle in hay` for strings. -/
def inStr (needle hay : String) : Bool := subAt needle.data hay.data

/-- State of the scan in `get_plot_params`: the three locals
`plot_count`, `counted_list`, `plot_num` of lines 171-173. -/
structure ScanState where
  plot_count : Nat
  counted_list : List String
  plot_num : List Nat
  deriving Repr, DecidableEq

/-- Initial scan state (lines 171-173). -/
def initState : ScanState := ⟨0, [], []⟩

/-- The `if fam not in counted_list: counted_list.append(fam);
plot_count += 1; plot_num.append(plot_count)` pattern used for a family that
opens a new panel (e.g. lines 179-182 for PM). -/
def addNew (st : ScanState) (fam : String) : ScanState :=
  if fam ∈ st.counted_list then st
  else ⟨st.plot_count + 1, st.counted_list ++ [fam],
        st.plot_num ++ [st.plot_count + 1]⟩

/-- The `if fam not in counted_list: counted_list.append(fam);
plot_num.append(plot_count)` pattern used for the second member of a pair,
which reuses the current panel number without incrementing the count
(lines 188-190 for RH, lines 216-218 for CO2). -/
def addPair (st : ScanState) (fam : String) : ScanState :=
  if fam ∈ st.counted_list then st
  else ⟨st.plot_count, st.counted_list ++ [fam],
        st.plot_num ++ [st.plot_count]⟩

/-- A guarded family block `if keyword in val: ...addNew...` (used for PM,
Current, Voltage, Power, Pressure, whose guards genuinely test the column
name). -/
def maybeAdd (st : ScanState) (fam : String) (b : Bool) : ScanState :=
  if b then addNew st fam else st

/-- One iteration of the `for val in cols` loop of `get_plot_params`
(lines 176-218), with the blocks applied in source order: PM, Temp/RH,
Current, Voltage, Power, Pressure, Gas/CO2.  The Temp/RH and Gas/CO2 guards
are always true in the source (string-literal truthiness), so those blocks
run unconditionally. -/
def stepCol (st : ScanState) (val : String) : ScanState :=
  addPair (addNew
    (maybeAdd (maybeAdd (maybeAdd (maybeAdd
      (addPair (addNew (maybeAdd st "PM" (inStr "PM" val)) "Temp") "RH")
      "Current" (inStr "Current" val))
      "Voltage" (inStr "Voltage" val))
      "Power" (inStr "Power" val))
      "Pressure" (inStr "Pressure" val)) "Gas") "CO2"

/-- The whole scan of `get_plot_params` over the column list. -/
def scanCols (cols : List String) : ScanState :=
  cols.foldl stepCol initState

/-- Embedding of `get_plot_params` (lines 158-229) on a list of string column
names: returns `plot_count` and the materialised
`zip(counted_list, plot_num)`. -/
def get_plot_params (cols : List String) : Nat × List (String × Nat) :=
  let st := scanCols cols
  (st.plot_count, st.counted_list.zip st.plot_num)

/-- The nine recognized signal families, each identified by the substring the
source scans for. -/
def families : List String :=
  ["PM", "Temp", "RH", "Current", "Voltage", "Power", "Pressure", "Gas", "CO2"]

/-- A family is present in a column list when some column name contains its
keyword as a substring. -/
def famPresent (fam : String) (cols : List String) : Bool :=
  cols.any (fun v => inStr fam v)

/-- C2 counter-evidence: evaluation of the embedded `get_plot_params` on the
column list `[Time, Pressure]`.  The claim (and the spec) expect one panel
holding only the Pressure family; the code returns three panels, with Temp,
RH, Gas and CO2 spuriously marked present, because the membership tests on
lines 183 and 211 are always true. -/
theorem c2_code_eval :
    get_plot_params ["Time", "Pressure"] =
      (3, [("Temp", 1), ("RH", 1), ("Gas", 2), ("CO2", 2), ("Pressure", 3)]) := by
  decide

/-- C3 counter-evidence: evaluation of the embedded `get_plot_params` on the
column list `[Time, PM2.5]`.  PM is the only family any column actually
matches, and it is first sighted at the earliest matching column, so the
claim assigns it panel 1; the code assigns it panel 3, after the
unconditionally inserted Temp/RH and Gas/CO2 pairs. -/
theorem c3_code_eval :
    get_plot_params ["Time", "PM2.5"] =
      (3, [("Temp", 1), ("RH", 1), ("Gas", 2), ("CO2", 2), ("PM", 3)]) := by
  decide

/-! ### Scan-state invariants (claims C9, C1, C6) -/

/-- Structural invariant maintained by the scan of `get_plot_params`:
the two lists grow in lockstep, no family is recorded twice, and every
recorded panel number is between 1 and the current panel count. -/
def ScanInv (st : ScanState) : Prop :=
  st.counted_list.length = st.plot_num.length ∧
  st.counted_list.Nodup ∧
  (∀ n ∈ st.plot_num, 1 ≤ n ∧ n ≤ st.plot_count) ∧
  (st.counted_list ≠ [] → 1 ≤ st.plot_count)

theorem scanInv_initState : ScanInv initState := by
  refine ⟨rfl, List.nodup_nil, ?_, ?_⟩ <;> simp [initState]

theorem scanInv_addNew (st : ScanState) (fam : String) (h : ScanInv st) :
    ScanInv (addNew st fam) := by
  obtain ⟨hlen, hnd, hbd, hne⟩ := h
  unfold addNew
  split
  · exact ⟨hlen, hnd, hbd, hne⟩
  · refine ⟨by simp [hlen], ?_, ?_, ?_⟩
    · simp [List.nodup_append, hnd]; assumption
    · intro n hn
      rcases List.mem_append.mp hn with hn | hn
      · rcases hbd n hn with ⟨h1, h2⟩; exact ⟨h1, Nat.le_succ_of_le h2⟩
      · simp at hn; subst hn; exact ⟨Nat.le_add_left 1 _, le_refl _⟩
    · intro _; exact Nat.le_add_left 1 _

theorem scanInv_addPair (st : ScanState) (fam : String)
    (h : ScanInv st) (hne : st.counted_list ≠ []) : ScanInv (addPair st fam) := by
  obtain ⟨hlen, hnd, hbd, hcnt⟩ := h
  unfold addPair
  split
  · exact ⟨hlen, hnd, hbd, hcnt⟩
  · refine ⟨by simp [hlen], ?_, ?_, ?_⟩
    · simp [List.nodup_append, hnd]; assumption
    · intro n hn
      rcases List.mem_append.mp hn with hn | hn
      · exact hbd n hn
      · simp at hn; subst hn; exact ⟨hcnt hne, le_refl _⟩
    · intro _; exact hcnt hne

theorem counted_addNew_sub (st : ScanState) (fam : String) :
    st.counted_list ⊆ (addNew st fam).counted_list := by
  unfold addNew; split
  · exact fun a ha => ha
  · exact fun a ha => List.mem_append.mpr (Or.inl ha)

theorem counted_addPair_sub (st : ScanState) (fam : String) :
    st.counted_list ⊆ (addPair st fam).counted_list := by
  unfold addPair; split
  · exact fun a ha => ha
  · exact fun a ha => List.mem_append.mpr (Or.inl ha)

theorem mem_addNew_self (st : ScanState) (fam : String) :
    fam ∈ (addNew st fam).counted_list := by
  unfold addNew; split
  · assumption
  · exact List.mem_append.mpr (Or.inr (List.mem_singleton.mpr rfl))

theorem mem_addPair_self (st : ScanState) (fam : String) :
    fam ∈ (addPair st fam).counted_list := by
  unfold addPair; split
  · assumption
  · exact List.mem_append.mpr (Or.inr (List.mem_singleton.mpr rfl))

theorem counted_addNew_ne (st : ScanState) (fam : String) :
    (addNew st fam).counted_list ≠ [] := by
  intro h
  exact (List.ne_nil_of_mem (mem_addNew_self st fam)) h

theorem scanInv_maybeAdd (st : ScanState) (fam : String) (b : Bool) (h : ScanInv st) :
    ScanInv (maybeAdd st fam b) := by
  cases b
  · exact h
  · exact scanInv_addNew st fam h

theorem scanInv_stepCol (st : ScanState) (val : String) (h : ScanInv st) :
    ScanInv (stepCol st val) := by
  unfold stepCol
  exact scanInv_addPair _ _
    (scanInv_addNew _ _ (scanInv_maybeAdd _ _ _ (scanInv_maybeAdd _ _ _ (scanInv_maybeAdd _ _ _
      (scanInv_maybeAdd _ _ _
        (scanInv_addPair _ _ (scanInv_addNew _ _ (scanInv_maybeAdd _ _ _ h))
          (counted_addNew_ne _ "Temp")))))))
    (counted_addNew_ne _ "Gas")

theorem scanInv_foldl (cols : List String) :
    ∀ st : ScanState, ScanInv st → ScanInv (cols.foldl stepCol st) := by
  induction cols with
  | nil => intro st h; exact h
  | cons c rest ih => intro st h; exact ih _ (scanInv_stepCol st c h)

theorem scanInv_scanCols (cols : List String) : ScanInv (scanCols cols) :=
  scanInv_foldl cols initState scanInv_initState

theorem counted_maybeAdd_sub (st : ScanState) (fam : String) (b : Bool) :
    st.counted_list ⊆ (maybeAdd st fam b).counted_list := by
  cases b
  · exact fun a ha => ha
  · exact counted_addNew_sub st fam

theorem counted_stepCol_sub (st : ScanState) (val : String) :
    st.counted_list ⊆ (stepCol st val).counted_list := by
  unfold stepCol
  intro a ha
  apply counted_addPair_sub
  apply counted_addNew_sub
  apply counted_maybeAdd_sub
  apply counted_maybeAdd_sub
  apply counted_maybeAdd_sub
  apply counted_maybeAdd_sub
  apply counted_addPair_sub
  apply counted_addNew_sub
  exact counted_maybeAdd_sub _ _ _ ha

theorem counted_foldl_sub (cols : List String) :
    ∀ st : ScanState, st.counted_list ⊆ (cols.foldl stepCol st).counted_list := by
  induction cols with
  | nil => intro st a ha; exact ha
  | cons c rest ih =>
      intro st a ha
      exact ih (stepCol st c) (counted_stepCol_sub st c ha)

theorem mem_maybeAdd_true (st : ScanState) (fam : String) :
    fam ∈ (maybeAdd st fam true).counted_list :=
  mem_addNew_self st fam

/-- After one loop iteration on a column name `val`, every family whose
keyword occurs in `val` is recorded in `counted_list` (and Temp, RH, Gas,
CO2 are recorded no matter what `val` is). -/
theorem mem_stepCol_of_match (st : ScanState) (val fam : String)
    (hfam : fam ∈ families) (hmatch : inStr fam val = true) :
    fam ∈ (stepCol st val).counted_list := by
  have hfam9 : fam = "PM" ∨ fam = "Temp" ∨ fam = "RH" ∨ fam = "Current" ∨
      fam = "Voltage" ∨ fam = "Power" ∨ fam = "Pressure" ∨ fam = "Gas" ∨
      fam = "CO2" := by
    simpa [families] using hfam
  unfold stepCol
  rcases hfam9 with h | h | h | h | h | h | h | h | h <;> subst h
  · apply counted_addPair_sub
    apply counted_addNew_sub
    apply counted_maybeAdd_sub
    apply counted_maybeAdd_sub
    apply counted_maybeAdd_sub
    apply counted_maybeAdd_sub
    apply counted_addPair_sub
    apply counted_addNew_sub
    rw [hmatch]
    exact mem_maybeAdd_true st "PM"
  · apply counted_addPair_sub
    apply counted_addNew_sub
    apply counted_maybeAdd_sub
    apply counted_maybeAdd_sub
    apply counted_maybeAdd_sub
    apply counted_maybeAdd_sub
    apply counted_addPair_sub
    exact mem_addNew_self _ "Temp"
  · apply counted_addPair_sub
    apply counted_addNew_sub
    apply counted_maybeAdd_sub
    apply counted_maybeAdd_sub
    apply counted_maybeAdd_sub
    apply counted_maybeAdd_sub
    exact mem_addPair_self _ "RH"
  · apply counted_addPair_sub
    apply counted_addNew_sub
    apply counted_maybeAdd_sub
    apply counted_maybeAdd_sub
    apply counted_maybeAdd_sub
    rw [hmatch]
    exact mem_maybeAdd_true _ "Current"
  · apply counted_addPair_sub
    apply counted_addNew_sub
    apply counted_maybeAdd_sub
    apply counted_maybeAdd_sub
    rw [hmatch]
    exact mem_maybeAdd_true _ "Voltage"
  · apply counted_addPair_sub
    apply counted_addNew_sub
    apply counted_maybeAdd_sub
    rw [hmatch]
    exact mem_maybeAdd_true _ "Power"
  · apply counted_addPair_sub
    apply counted_addNew_sub
    rw [hmatch]
    exact mem_maybeAdd_true _ "Pressure"
  · apply counted_addPair_sub
    exact mem_addNew_self _ "Gas"
  · exact mem_addPair_self _ "CO2"

/-- A family matched by some column of the list is recorded by the scan. -/
theorem mem_scan_of_present (cols : List String) (fam : String)
    (hfam : fam ∈ families) (hpres : famPresent fam cols = true) :
    fam ∈ (scanCols cols).counted_list := by
  have key : ∀ l : List String, ∀ st : ScanState,
      (∃ v ∈ l, inStr fam v = true) → fam ∈ (l.foldl stepCol st).counted_list := by
    intro l
    induction l with
    | nil => intro st h; rcases h with ⟨v, hv, _⟩; cases hv
    | cons c rest ih =>
        intro st h
        rcases h with ⟨v, hv, hm⟩
        rcases List.mem_cons.mp hv with hv | hv
        · exact counted_foldl_sub rest (stepCol st c)
            (mem_stepCol_of_match st c fam hfam (hv ▸ hm))
        · exact ih (stepCol st c) ⟨v, hv, hm⟩
  have hex : ∃ v ∈ cols, inStr fam v = true := by
    simpa [famPresent, List.any_eq_true] using hpres
  exact key cols initState hex

theorem map_fst_params (cols : List String) :
    (get_plot_params cols).2.map Prod.fst = (scanCols cols).counted_list := by
  obtain ⟨hlen, _, _, _⟩ := scanInv_scanCols cols
  exact List.map_fst_zip _ _ (le_of_eq hlen)

/-- C9: the scan of `get_plot_params` keeps `counted_list` and `plot_num` of
equal length, records no family twice, and keeps every recorded panel number
between 1 and the current panel count; consequently the zip returned by the
function is a well-formed family-to-panel mapping (no duplicate keys, every
value between 1 and the returned count).  The state reached after consuming
any prefix of the column list is `scanCols` of that prefix, so quantifying
over all column lists covers every intermediate scan state as well as the
state at return. -/
theorem c9_scan_wellformed (cols : List String) :
    (scanCols cols).counted_list.length = (scanCols cols).plot_num.length ∧
    (scanCols cols).counted_list.Nodup ∧
    (∀ n ∈ (scanCols cols).plot_num, 1 ≤ n ∧ n ≤ (scanCols cols).plot_count) ∧
    ((get_plot_params cols).2.map Prod.fst).Nodup ∧
    (∀ p ∈ (get_plot_params cols).2, 1 ≤ p.2 ∧ p.2 ≤ (get_plot_params cols).1) := by
  obtain ⟨hlen, hnd, hbd, hcnt⟩ := scanInv_scanCols cols
  refine ⟨hlen, hnd, hbd, ?_, ?_⟩
  · rw [map_fst_params cols]; exact hnd
  · intro p hp
    obtain ⟨a, b⟩ := p
    have hb : b ∈ (scanCols cols).plot_num := (List.of_mem_zip hp).2
    exact hbd b hb

/-! ### Pairing of Temp/RH and Gas/CO2 (claim C1) -/

/-- Association list actually returned by `get_plot_params`:
`zip(counted_list, plot_num)`. -/
def assocOf (st : ScanState) : List (String × Nat) :=
  st.counted_list.zip st.plot_num

/-- Panel index assigned to a family by `get_plot_params`, looked up in the
returned zip (first occurrence, as `plot_names.index` does in `plot_data`). -/
def panelOf (cols : List String) (fam : String) : Option Nat :=
  List.lookup fam (get_plot_params cols).2

theorem lookup_append_or (k : String) (l1 l2 : List (String × Nat)) :
    List.lookup k (l1 ++ l2) = (List.lookup k l1).or (List.lookup k l2) := by
  induction l1 with
  | nil => simp
  | cons p t ih =>
      obtain ⟨a, b⟩ := p
      by_cases h : k = a
      · subst h; simp [List.lookup]
      · simp [List.lookup, beq_false_of_ne h, ih]

theorem lookup_none_of_not_key (k : String) (l : List (String × Nat))
    (h : k ∉ l.map Prod.fst) : List.lookup k l = none := by
  induction l with
  | nil => rfl
  | cons p t ih =>
      obtain ⟨a, b⟩ := p
      simp only [List.map_cons, List.mem_cons, not_or] at h
      simp [List.lookup, beq_false_of_ne h.1, ih h.2]

theorem lookup_isSome_of_key (k : String) (l : List (String × Nat))
    (h : k ∈ l.map Prod.fst) : (List.lookup k l).isSome = true := by
  induction l with
  | nil => simp at h
  | cons p t ih =>
      obtain ⟨a, b⟩ := p
      by_cases hk : k = a
      · subst hk; simp [List.lookup]
      · simp only [List.map_cons, List.mem_cons] at h
        rcases h with h | h
        · exact absurd h hk
        · simp [List.lookup, beq_false_of_ne hk, ih h]

theorem counted_addNew_eq (st : ScanState) (fam : String) :
    (addNew st fam).counted_list =
      if fam ∈ st.counted_list then st.counted_list
      else st.counted_list ++ [fam] := by
  unfold addNew; split <;> simp_all

theorem counted_addPair_eq (st : ScanState) (fam : String) :
    (addPair st fam).counted_list =
      if fam ∈ st.counted_list then st.counted_list
      else st.counted_list ++ [fam] := by
  unfold addPair; split <;> simp_all

theorem assocOf_addNew (st : ScanState) (fam : String)
    (hlen : st.counted_list.length = st.plot_num.length) :
    assocOf (addNew st fam) =
      if fam ∈ st.counted_list then assocOf st
      else assocOf st ++ [(fam, st.plot_count + 1)] := by
  unfold addNew assocOf
  split
  · simp_all
  · simp only
    rw [List.zip_append hlen]
    rfl

theorem assocOf_addPair (st : ScanState) (fam : String)
    (hlen : st.counted_list.length = st.plot_num.length) :
    assocOf (addPair st fam) =
      if fam ∈ st.counted_list then assocOf st
      else assocOf st ++ [(fam, st.plot_count)] := by
  unfold addPair assocOf
  split
  · simp_all
  · simp only
    rw [List.zip_append hlen]
    rfl

/-- Pair coherence for a paired family couple: either member is recorded iff
the other is, and both first-occurrence lookups in the returned zip agree. -/
def pairOK (a b : String) (st : ScanState) : Prop :=
  (a ∈ st.counted_list ↔ b ∈ st.counted_list) ∧
  List.lookup a (assocOf st) = List.lookup b (assocOf st)

theorem pairOK_addNew_other (st : ScanState) (a b x : String)
    (hxa : x ≠ a) (hxb : x ≠ b)
    (hlen : st.counted_list.length = st.plot_num.length)
    (h : pairOK a b st) : pairOK a b (addNew st x) := by
  obtain ⟨hiff, hlk⟩ := h
  constructor
  · rw [counted_addNew_eq]
    split
    · exact hiff
    · simp only [List.mem_append, List.mem_singleton]
      constructor
      · rintro (ha | ha)
        · exact Or.inl (hiff.mp ha)
        · exact absurd ha.symm hxa
      · rintro (hb | hb)
        · exact Or.inl (hiff.mpr hb)
        · exact absurd hb.symm hxb
  · rw [assocOf_addNew st x hlen]
    split
    · exact hlk
    · rw [lookup_append_or, lookup_append_or]
      have ha : List.lookup a [(x, st.plot_count + 1)] = none := by
        simp [List.lookup, beq_false_of_ne (Ne.symm hxa)]
      have hb : List.lookup b [(x, st.plot_count + 1)] = none := by
        simp [List.lookup, beq_false_of_ne (Ne.symm hxb)]
      rw [ha, hb, hlk]

theorem pairOK_addPair_other (st : ScanState) (a b x : String)
    (hxa : x ≠ a) (hxb : x ≠ b)
    (hlen : st.counted_list.length = st.plot_num.length)
    (h : pairOK a b st) : pairOK a b (addPair st x) := by
  obtain ⟨hiff, hlk⟩ := h
  constructor
  · rw [counted_addPair_eq]
    split
    · exact hiff
    · simp only [List.mem_append, List.mem_singleton]
      constructor
      · rintro (ha | ha)
        · exact Or.inl (hiff.mp ha)
        · exact absurd ha.symm hxa
      · rintro (hb | hb)
        · exact Or.inl (hiff.mpr hb)
        · exact absurd hb.symm hxb
  · rw [assocOf_addPair st x hlen]
    split
    · exact hlk
    · rw [lookup_append_or, lookup_append_or]
      have ha : List.lookup a [(x, st.plot_count)] = none := by
        simp [List.lookup, beq_false_of_ne (Ne.symm hxa)]
      have hb : List.lookup b [(x, st.plot_count)] = none := by
        simp [List.lookup, beq_false_of_ne (Ne.symm hxb)]
      rw [ha, hb, hlk]

theorem pairOK_maybeAdd_other (st : ScanState) (a b x : String) (g : Bool)
    (hxa : x ≠ a) (hxb : x ≠ b)
    (hlen : st.counted_list.length = st.plot_num.length)
    (h : pairOK a b st) : pairOK a b (maybeAdd st x g) := by
  cases g
  · exact h
  · exact pairOK_addNew_other st a b x hxa hxb hlen h

theorem addNew_of_mem (st : ScanState) (fam : String)
    (h : fam ∈ st.counted_list) : addNew st fam = st := by
  unfold addNew; simp [h]

theorem addPair_of_mem (st : ScanState) (fam : String)
    (h : fam ∈ st.counted_list) : addPair st fam = st := by
  unfold addPair; simp [h]

theorem addNew_of_not_mem (st : ScanState) (fam : String)
    (h : fam ∉ st.counted_list) :
    addNew st fam = ⟨st.plot_count + 1, st.counted_list ++ [fam],
      st.plot_num ++ [st.plot_count + 1]⟩ := by
  unfold addNew; simp [h]

theorem addPair_of_not_mem (st : ScanState) (fam : String)
    (h : fam ∉ st.counted_list) :
    addPair st fam = ⟨st.plot_count, st.counted_list ++ [fam],
      st.plot_num ++ [st.plot_count]⟩ := by
  unfold addPair; simp [h]

/-- The paired block `addPair (addNew st a) b` (the Temp/RH block of lines
183-190 and the Gas/CO2 block of lines 211-218) establishes and preserves
pair coherence: after it, `a` is recorded iff `b` is, and both look up the
same panel number. -/
theorem pairOK_block (st : ScanState) (a b : String) (hab : a ≠ b)
    (hlen : st.counted_list.length = st.plot_num.length)
    (h : pairOK a b st) : pairOK a b (addPair (addNew st a) b) := by
  obtain ⟨hiff, hlk⟩ := h
  by_cases ha : a ∈ st.counted_list
  · rw [addNew_of_mem st a ha, addPair_of_mem st b (hiff.mp ha)]
    exact ⟨hiff, hlk⟩
  · have hb : b ∉ st.counted_list := fun hbm => ha (hiff.mpr hbm)
    have halk : List.lookup a (assocOf st) = none := by
      apply lookup_none_of_not_key
      unfold assocOf
      rw [List.map_fst_zip _ _ (le_of_eq hlen)]
      exact ha
    have hblk : List.lookup b (assocOf st) = none := by
      apply lookup_none_of_not_key
      unfold assocOf
      rw [List.map_fst_zip _ _ (le_of_eq hlen)]
      exact hb
    rw [addNew_of_not_mem st a ha]
    have hb2 : b ∉ st.counted_list ++ [a] := by
      simp only [List.mem_append, List.mem_singleton]
      rintro (hbm | hbm)
      · exact hb hbm
      · exact hab hbm.symm
    rw [addPair_of_not_mem _ b hb2]
    constructor
    · simp
    · show List.lookup a (((st.counted_list ++ [a]) ++ [b]).zip
        ((st.plot_num ++ [st.plot_count + 1]) ++ [st.plot_count + 1])) =
        List.lookup b (((st.counted_list ++ [a]) ++ [b]).zip
        ((st.plot_num ++ [st.plot_count + 1]) ++ [st.plot_count + 1]))
      rw [List.zip_append (by simp [hlen]), List.zip_append hlen]
      rw [lookup_append_or, lookup_append_or, lookup_append_or, lookup_append_or]
      rw [show (assocOf st = st.counted_list.zip st.plot_num) from rfl] at halk hblk
      rw [halk, hblk]
      simp [List.lookup, beq_false_of_ne hab, beq_false_of_ne (Ne.symm hab)]

theorem pairOK_tempRH_stepCol (st : ScanState) (val : String)
    (hinv : ScanInv st) (h : pairOK "Temp" "RH" st) :
    pairOK "Temp" "RH" (stepCol st val) := by
  unfold stepCol
  have i0 := scanInv_maybeAdd st "PM" (inStr "PM" val) hinv
  have p0 := pairOK_maybeAdd_other st "Temp" "RH" "PM" (inStr "PM" val)
    (by decide) (by decide) hinv.1 h
  have p1 := pairOK_block _ "Temp" "RH" (by decide) i0.1 p0
  have i1 := scanInv_addPair _ "RH" (scanInv_addNew _ "Temp" i0)
    (counted_addNew_ne _ "Temp")
  have p2 := pairOK_maybeAdd_other _ "Temp" "RH" "Current" (inStr "Current" val)
    (by decide) (by decide) i1.1 p1
  have i2 := scanInv_maybeAdd _ "Current" (inStr "Current" val) i1
  have p3 := pairOK_maybeAdd_other _ "Temp" "RH" "Voltage" (inStr "Voltage" val)
    (by decide) (by decide) i2.1 p2
  have i3 := scanInv_maybeAdd _ "Voltage" (inStr "Voltage" val) i2
  have p4 := pairOK_maybeAdd_other _ "Temp" "RH" "Power" (inStr "Power" val)
    (by decide) (by decide) i3.1 p3
  have i4 := scanInv_maybeAdd _ "Power" (inStr "Power" val) i3
  have p5 := pairOK_maybeAdd_other _ "Temp" "RH" "Pressure" (inStr "Pressure" val)
    (by decide) (by decide) i4.1 p4
  have i5 := scanInv_maybeAdd _ "Pressure" (inStr "Pressure" val) i4
  have p6 := pairOK_addNew_other _ "Temp" "RH" "Gas"
    (by decide) (by decide) i5.1 p5
  have i6 := scanInv_addNew _ "Gas" i5
  exact pairOK_addPair_other _ "Temp" "RH" "CO2"
    (by decide) (by decide) i6.1 p6

theorem pairOK_gasCO2_stepCol (st : ScanState) (val : String)
    (hinv : ScanInv st) (h : pairOK "Gas" "CO2" st) :
    pairOK "Gas" "CO2" (stepCol st val) := by
  unfold stepCol
  have i0 := scanInv_maybeAdd st "PM" (inStr "PM" val) hinv
  have p0 := pairOK_maybeAdd_other st "Gas" "CO2" "PM" (inStr "PM" val)
    (by decide) (by decide) hinv.1 h
  have p1a := pairOK_addNew_other _ "Gas" "CO2" "Temp"
    (by decide) (by decide) i0.1 p0
  have i1a := scanInv_addNew _ "Temp" i0
  have p1 := pairOK_addPair_other _ "Gas" "CO2" "RH"
    (by decide) (by decide) i1a.1 p1a
  have i1 := scanInv_addPair _ "RH" i1a (counted_addNew_ne _ "Temp")
  have p2 := pairOK_maybeAdd_other _ "Gas" "CO2" "Current" (inStr "Current" val)
    (by decide) (by decide) i1.1 p1
  have i2 := scanInv_maybeAdd _ "Current" (inStr "Current" val) i1
  have p3 := pairOK_maybeAdd_other _ "Gas" "CO2" "Voltage" (inStr "Voltage" val)
    (by decide) (by decide) i2.1 p2
  have i3 := scanInv_maybeAdd _ "Voltage" (inStr "Voltage" val) i2
  have p4 := pairOK_maybeAdd_other _ "Gas" "CO2" "Power" (inStr "Power" val)
    (by decide) (by decide) i3.1 p3
  have i4 := scanInv_maybeAdd _ "Power" (inStr "Power" val) i3
  have p5 := pairOK_maybeAdd_other _ "Gas" "CO2" "Pressure" (inStr "Pressure" val)
    (by decide) (by decide) i4.1 p4
  have i5 := scanInv_maybeAdd _ "Pressure" (inStr "Pressure" val) i4
  exact pairOK_block _ "Gas" "CO2" (by decide) i5.1 p5

theorem pairOK_scanCols (cols : List String) :
    pairOK "Temp" "RH" (scanCols cols) ∧ pairOK "Gas" "CO2" (scanCols cols) := by
  have key : ∀ l : List String, ∀ st : ScanState, ScanInv st →
      pairOK "Temp" "RH" st → pairOK "Gas" "CO2" st →
      pairOK "Temp" "RH" (l.foldl stepCol st) ∧
      pairOK "Gas" "CO2" (l.foldl stepCol st) := by
    intro l
    induction l with
    | nil => intro st _ h1 h2; exact ⟨h1, h2⟩
    | cons c rest ih =>
        intro st hinv h1 h2
        exact ih (stepCol st c) (scanInv_stepCol st c hinv)
          (pairOK_tempRH_stepCol st c hinv h1)
          (pairOK_gasCO2_stepCol st c hinv h2)
  exact key cols initState scanInv_initState
    ⟨by simp [initState], rfl⟩ ⟨by simp [initState], rfl⟩

/-- C1: for every column list containing a Time column, the classifier
records each family that some column matches exactly once in the returned
zip, and the paired families Temp/RH and Gas/CO2 are mapped to the same
panel index whenever both are present. -/
theorem c1_family_panels (cols : List String) (hT : "Time" ∈ cols) :
    (∀ fam ∈ families, famPresent fam cols = true →
        ((get_plot_params cols).2.map Prod.fst).count fam = 1) ∧
    (famPresent "Temp" cols = true → famPresent "RH" cols = true →
        panelOf cols "Temp" = panelOf cols "RH" ∧
        (panelOf cols "Temp").isSome = true) ∧
    (famPresent "Gas" cols = true → famPresent "CO2" cols = true →
        panelOf cols "Gas" = panelOf cols "CO2" ∧
        (panelOf cols "Gas").isSome = true) := by
  obtain ⟨_, hnd, _, _⟩ := scanInv_scanCols cols
  obtain ⟨hTR, hGC⟩ := pairOK_scanCols cols
  refine ⟨?_, ?_, ?_⟩
  · intro fam hfam hpres
    rw [map_fst_params]
    exact List.count_eq_one_of_mem hnd (mem_scan_of_present cols fam hfam hpres)
  · intro hp _
    refine ⟨hTR.2, ?_⟩
    apply lookup_isSome_of_key
    rw [map_fst_params]
    exact mem_scan_of_present cols "Temp" (by decide) hp
  · intro hp _
    refine ⟨hGC.2, ?_⟩
    apply lookup_isSome_of_key
    rw [map_fst_params]
    exact mem_scan_of_present cols "Gas" (by decide) hp

theorem c1_family_panels_witness :
    ("Time" ∈ ["Time", "PM2.5", "Temp1", "RH1", "GasR", "CO2c", "Current_A"]) ∧
    ((∀ fam ∈ families,
        famPresent fam ["Time", "PM2.5", "Temp1", "RH1", "GasR", "CO2c",
          "Current_A"] = true →
        ((get_plot_params ["Time", "PM2.5", "Temp1", "RH1", "GasR", "CO2c",
          "Current_A"]).2.map Prod.fst).count fam = 1) ∧
    (famPresent "Temp" ["Time", "PM2.5", "Temp1", "RH1", "GasR", "CO2c",
        "Current_A"] = true →
      famPresent "RH" ["Time", "PM2.5", "Temp1", "RH1", "GasR", "CO2c",
        "Current_A"] = true →
      panelOf ["Time", "PM2.5", "Temp1", "RH1", "GasR", "CO2c",
        "Current_A"] "Temp" =
        panelOf ["Time", "PM2.5", "Temp1", "RH1", "GasR", "CO2c",
          "Current_A"] "RH" ∧
      (panelOf ["Time", "PM2.5", "Temp1", "RH1", "GasR", "CO2c",
        "Current_A"] "Temp").isSome = true) ∧
    (famPresent "Gas" ["Time", "PM2.5", "Temp1", "RH1", "GasR", "CO2c",
        "Current_A"] = true →
      famPresent "CO2" ["Time", "PM2.5", "Temp1", "RH1", "GasR", "CO2c",
        "Current_A"] = true →
      panelOf ["Time", "PM2.5", "Temp1", "RH1", "GasR", "CO2c",
        "Current_A"] "Gas" =
        panelOf ["Time", "PM2.5", "Temp1", "RH1", "GasR", "CO2c",
          "Current_A"] "CO2" ∧
      (panelOf ["Time", "PM2.5", "Temp1", "RH1", "GasR", "CO2c",
        "Current_A"] "Gas").isSome = true)) :=
  ⟨by decide, c1_family_panels _ (by decide)⟩

/-- Columns that receive a series in the PM panel of `plot_data`
(lines 285-295): every column containing PM except those also containing the
self-test marker ST, which fall into the branch that draws nothing. -/
def pmPanelSeries (cols : List String) : List String :=
  cols.filter (fun v => inStr "PM" v && !(inStr "ST" v))

/-- C6: a column whose name contains both PM and ST makes the PM family
present in the classifier output (recorded exactly once, so it opens no
extra panel beyond the single PM panel), yet `plot_data` draws no series for
that column in the PM panel. -/
theorem c6_pm_selftest (cols : List String) (v : String) (hv : v ∈ cols)
    (hpm : inStr "PM" v = true) (hst : inStr "ST" v = true) :
    "PM" ∈ (get_plot_params cols).2.map Prod.fst ∧
    ((get_plot_params cols).2.map Prod.fst).count "PM" = 1 ∧
    v ∉ pmPanelSeries cols := by
  obtain ⟨_, hnd, _, _⟩ := scanInv_scanCols cols
  have hpres : famPresent "PM" cols = true := by
    unfold famPresent
    rw [List.any_eq_true]
    exact ⟨v, hv, hpm⟩
  have hmem := mem_scan_of_present cols "PM" (by decide) hpres
  refine ⟨?_, ?_, ?_⟩
  · rw [map_fst_params]; exact hmem
  · rw [map_fst_params]; exact List.count_eq_one_of_mem hnd hmem
  · intro hvin
    unfold pmPanelSeries at hvin
    rw [List.mem_filter, hpm, hst] at hvin
    simp at hvin

theorem c6_pm_selftest_witness :
    ("PM2.5_ST" ∈ ["Time", "PM2.5", "PM2.5_ST"] ∧
      inStr "PM" "PM2.5_ST" = true ∧ inStr "ST" "PM2.5_ST" = true) ∧
    ("PM" ∈ (get_plot_params ["Time", "PM2.5", "PM2.5_ST"]).2.map Prod.fst ∧
      ((get_plot_params ["Time", "PM2.5", "PM2.5_ST"]).2.map Prod.fst).count
        "PM" = 1 ∧
      "PM2.5_ST" ∉ pmPanelSeries ["Time", "PM2.5", "PM2.5_ST"]) :=
  ⟨⟨by decide, by decide, by decide⟩,
    c6_pm_selftest _ _ (by decide) (by decide) (by decide)⟩

/-! ### The text report: `make_text` (claims C5, C7, C8, C10) -/

/-- A cell value of the reading table: a Python string (the Time column) or
a numeric value, modelled as an exact rational. -/
inductive PVal where
  | vstr (s : String)
  | vnum (q : ℚ)
  deriving Repr, DecidableEq

/-- Python `type(val) is str` is false exactly on numeric cells. -/
def PVal.isNum : PVal → Bool
  | .vstr _ => false
  | .vnum _ => true

/-- Numeric content of a cell (only used on numeric cells). -/
def numOf : PVal → ℚ
  | .vstr _ => 0
  | .vnum q => q

/-- Left-justified padding to a minimum width with spaces: the Python format
spec with a fixed width, which never truncates a longer value. -/
def padTo (w : Nat) (s : String) : String :=
  s ++ String.mk (List.replicate (w - s.length) ' ')

/-- Fixed-point rendering of a rational at two decimals (the .2f format
spec).  The code-side and spec-side renderings below both use this function,
so its tie-breaking convention does not affect any theorem. -/
def fmt2 (q : ℚ) : String :=
  let n : ℤ := ⌊q * 100 + 1 / 2⌋
  let sign := if n < 0 then "-" else ""
  let ip := n.natAbs / 100
  let fp := n.natAbs % 100
  sign ++ toString ip ++ "." ++ (if fp < 10 then "0" else "") ++ toString fp

/-- Python `tot += val` (lines 139 and 141): adding a string raises
TypeError. -/
def addVal (tot : ℚ) : PVal → Except String ℚ
  | .vnum q => Except.ok (tot + q)
  | .vstr _ => Except.error "TypeError: unsupported operand types"

/-- Rendering of one cell (lines 143-147): a string goes into a 25-character
field as plain text, anything else into a 20-character field at two
decimals. -/
def fmtCell : PVal → String
  | .vstr s => padTo 25 s
  | .vnum q => padTo 20 (fmt2 q)

/-- One `val, ind` iteration of the inner loop of `make_text` (lines
135-147): update the Current and Power totals, then append the formatted
value.  The accumulator is `(current_tot, power_tot, str_vals)`. -/
def cellStep (acc : ℚ × ℚ × String) (e : PVal × String) :
    Except String (ℚ × ℚ × String) :=
  match (if inStr "Current" e.2 then addVal acc.1 e.1 else Except.ok acc.1) with
  | Except.error msg => Except.error msg
  | Except.ok cur =>
    match (if inStr "Power" e.2 then addVal acc.2.1 e.1
           else Except.ok acc.2.1) with
    | Except.error msg => Except.error msg
    | Except.ok pow => Except.ok (cur, pow, acc.2.2 ++ fmtCell e.1)

/-- The inner `for val, ind in zip(row.values, row.index)` loop. -/
def cellFold : List (PVal × String) → (ℚ × ℚ × String) →
    Except String (ℚ × ℚ × String)
  | [], acc => Except.ok acc
  | e :: t, acc =>
      match cellStep acc e with
      | Except.error msg => Except.error msg
      | Except.ok acc2 => cellFold t acc2

/-- One row of the report (lines 129-150): the formatted cells followed by
the two derived totals at two decimals and a newline. -/
def rowLine (cols : List String) (row : List PVal) : Except String String :=
  match cellFold (row.zip cols) (0, 0, "") with
  | Except.error msg => Except.error msg
  | Except.ok r =>
      Except.ok (r.2.2 ++ padTo 20 (fmt2 r.1) ++ padTo 20 (fmt2 r.2.1) ++ "\n")

/-- The derived per-row totals alone (`current_tot`, `power_tot` as of line
149). -/
def rowTotals (cols : List String) (row : List PVal) : Except String (ℚ × ℚ) :=
  match cellFold (row.zip cols) (0, 0, "") with
  | Except.error msg => Except.error msg
  | Except.ok r => Except.ok (r.1, r.2.1)

/-- Header built by the loop of lines 119-124 (each column name in a
20-character field, the exactly named Time column in a 25-character one). -/
def headerLine (cols : List String) : String :=
  cols.foldl (fun acc val =>
    acc ++ (if val = "Time" then padTo 25 val else padTo 20 val)) ""

/-- A reading table: ordered column names and rows of cells (each row
aligned with the columns positionally, as `row.values` / `row.index` are in
the source; the zips below truncate exactly as Python zip does). -/
structure Frame where
  cols : List String
  rows : List (List PVal)
  deriving Repr, DecidableEq

/-- The outer `for index, row in frame.iterrows()` loop (lines 129-150),
accumulating the file content written so far. -/
def rowsFold (cols : List String) : List (List PVal) → String →
    Except String String
  | [], acc => Except.ok acc
  | row :: rest, acc =>
      match rowLine cols row with
      | Except.error msg => Except.error msg
      | Except.ok l => rowsFold cols rest (acc ++ l)

/-- Complete content of the text file written by `make_text` (lines
110-151) when no exception interrupts the row loop: the header line, the
two extra header fields and a newline, then one line per row. -/
def makeTextContent (f : Frame) : Except String String :=
  rowsFold f.cols f.rows
    (headerLine f.cols ++ padTo 20 "Total Current" ++ padTo 20 "Total Power"
      ++ "\n")

/-- Concatenation of a list of strings (used for the spec-side description
of the report). -/
def strConcat : List String → String
  | [] => ""
  | s :: t => s ++ strConcat t

/-- Spec-side total: the sum of the numeric values of the entries whose
column name contains the word Current. -/
def curSum (es : List (PVal × String)) : ℚ :=
  ((es.filter (fun e => inStr "Current" e.2)).map (fun e => numOf e.1)).sum

/-- Spec-side total: the sum of the numeric values of the entries whose
column name contains the word Power. -/
def powSum (es : List (PVal × String)) : ℚ :=
  ((es.filter (fun e => inStr "Power" e.2)).map (fun e => numOf e.1)).sum

theorem curSum_cons (v : PVal) (ind : String) (t : List (PVal × String)) :
    curSum ((v, ind) :: t) =
      (if inStr "Current" ind then numOf v else 0) + curSum t := by
  unfold curSum
  by_cases hc : inStr "Current" ind = true <;> simp [List.filter_cons, hc]

theorem powSum_cons (v : PVal) (ind : String) (t : List (PVal × String)) :
    powSum ((v, ind) :: t) =
      (if inStr "Power" ind then numOf v else 0) + powSum t := by
  unfold powSum
  by_cases hp : inStr "Power" ind = true <;> simp [List.filter_cons, hp]

theorem cellFold_cons_ok (e : PVal × String) (t : List (PVal × String))
    (acc acc2 : ℚ × ℚ × String) (h : cellStep acc e = Except.ok acc2) :
    cellFold (e :: t) acc = cellFold t acc2 := by
  have heq : cellFold (e :: t) acc =
      (match cellStep acc e with
        | Except.error msg => Except.error msg
        | Except.ok acc2 => cellFold t acc2) := rfl
  rw [heq, h]

theorem cellStep_ok_num (c0 p0 : ℚ) (s0 : String) (q : ℚ) (ind : String) :
    cellStep (c0, p0, s0) (PVal.vnum q, ind) =
      Except.ok (c0 + (if inStr "Current" ind then q else 0),
                 p0 + (if inStr "Power" ind then q else 0),
                 s0 ++ fmtCell (PVal.vnum q)) := by
  unfold cellStep addVal
  by_cases hc : inStr "Current" ind = true <;>
    by_cases hp : inStr "Power" ind = true <;> simp [hc, hp]

theorem cellStep_ok_str (c0 p0 : ℚ) (s0 s ind : String)
    (hc : inStr "Current" ind = false) (hp : inStr "Power" ind = false) :
    cellStep (c0, p0, s0) (PVal.vstr s, ind) =
      Except.ok (c0, p0, s0 ++ fmtCell (PVal.vstr s)) := by
  unfold cellStep
  simp [hc, hp]

/-- The inner loop, run on entries whose non-Time values are numeric,
succeeds and accumulates exactly the filtered sums and the concatenated
formatted cells. -/
theorem cellFold_ok (es : List (PVal × String))
    (h : ∀ e ∈ es, e.2 ≠ "Time" → e.1.isNum = true) :
    ∀ c0 p0 : ℚ, ∀ s0 : String, cellFold es (c0, p0, s0) =
      Except.ok (c0 + curSum es, p0 + powSum es,
        s0 ++ strConcat (es.map (fun e => fmtCell e.1))) := by
  induction es with
  | nil =>
      intro c0 p0 s0
      simp [cellFold, curSum, powSum, strConcat]
  | cons e t ih =>
      obtain ⟨v, ind⟩ := e
      intro c0 p0 s0
      have htail : ∀ x ∈ t, x.2 ≠ "Time" → x.1.isNum = true :=
        fun x hx => h x (List.mem_cons_of_mem _ hx)
      cases v with
      | vnum q =>
          rw [cellFold_cons_ok _ _ _ _ (cellStep_ok_num c0 p0 s0 q ind),
            ih htail]
          rw [curSum_cons, powSum_cons]
          by_cases hc : inStr "Current" ind = true <;>
            by_cases hp : inStr "Power" ind = true <;>
            simp [hc, hp, numOf, strConcat, String.append_assoc, add_assoc]
      | vstr s =>
          have hnum := h (PVal.vstr s, ind) (List.mem_cons_self _ _)
          have hind : inStr "Current" ind = false ∧ inStr "Power" ind = false := by
            by_cases hT : ind = "Time"
            · subst hT; exact ⟨by decide, by decide⟩
            · have := hnum hT
              simp [PVal.isNum] at this
          rw [cellFold_cons_ok _ _ _ _
            (cellStep_ok_str c0 p0 s0 s ind hind.1 hind.2), ih htail]
          rw [curSum_cons, powSum_cons, hind.1, hind.2]
          simp [strConcat, String.append_assoc]

/-- Spec-side description of one report row: each cell formatted (strings in
25-character fields, numbers at two decimals in 20-character fields),
followed by the two derived totals at two decimals and a newline. -/
def rowLineSpec (cols : List String) (row : List PVal) : String :=
  strConcat ((row.zip cols).map (fun e => fmtCell e.1)) ++
    padTo 20 (fmt2 (curSum (row.zip cols))) ++
    padTo 20 (fmt2 (powSum (row.zip cols))) ++ "\n"

/-- Spec-side description of the header: each column name left-justified in
a 20-character field except the Time column which gets a 25-character field,
then the two extra header fields, then a newline. -/
def headerSpec (cols : List String) : String :=
  strConcat (cols.map (fun c => if c = "Time" then padTo 25 c else padTo 20 c))
    ++ padTo 20 "Total Current" ++ padTo 20 "Total Power" ++ "\n"

/-- Spec-side description of the whole report: exactly one header line then
one line per row. -/
def makeTextSpec (f : Frame) : String :=
  headerSpec f.cols ++ strConcat (f.rows.map (rowLineSpec f.cols))

theorem rowTotals_ok (cols : List String) (row : List PVal)
    (h : ∀ e ∈ row.zip cols, e.2 ≠ "Time" → e.1.isNum = true) :
    rowTotals cols row =
      Except.ok (curSum (row.zip cols), powSum (row.zip cols)) := by
  unfold rowTotals
  rw [cellFold_ok (row.zip cols) h 0 0 ""]
  simp

theorem rowLine_ok (cols : List String) (row : List PVal)
    (h : ∀ e ∈ row.zip cols, e.2 ≠ "Time" → e.1.isNum = true) :
    rowLine cols row = Except.ok (rowLineSpec cols row) := by
  unfold rowLine rowLineSpec
  rw [cellFold_ok (row.zip cols) h 0 0 ""]
  simp [String.append_assoc]

/-- C5: for a row all of whose non-Time values are numeric, the totals the
inner loop of `make_text` computes equal the sums of that row's values in
the columns whose name contains Current, respectively Power, and the emitted
row line appends exactly those two sums rendered at two decimals. -/
theorem c5_row_totals (cols : List String) (row : List PVal)
    (h : ∀ e ∈ row.zip cols, e.2 ≠ "Time" → e.1.isNum = true) :
    rowTotals cols row =
      Except.ok (curSum (row.zip cols), powSum (row.zip cols)) ∧
    rowLine cols row = Except.ok (rowLineSpec cols row) :=
  ⟨rowTotals_ok cols row h, rowLine_ok cols row h⟩

theorem c5_row_totals_witness :
    (∀ e ∈ ([PVal.vstr "00:00", PVal.vnum 5, PVal.vnum (3/2),
        PVal.vnum 2].zip ["Time", "Current_A", "Current_B", "Power1"]),
      e.2 ≠ "Time" → e.1.isNum = true) ∧
    (rowTotals ["Time", "Current_A", "Current_B", "Power1"]
        [PVal.vstr "00:00", PVal.vnum 5, PVal.vnum (3/2), PVal.vnum 2] =
      Except.ok
        (curSum ([PVal.vstr "00:00", PVal.vnum 5, PVal.vnum (3/2),
            PVal.vnum 2].zip ["Time", "Current_A", "Current_B", "Power1"]),
         powSum ([PVal.vstr "00:00", PVal.vnum 5, PVal.vnum (3/2),
            PVal.vnum 2].zip ["Time", "Current_A", "Current_B", "Power1"])) ∧
    rowLine ["Time", "Current_A", "Current_B", "Power1"]
        [PVal.vstr "00:00", PVal.vnum 5, PVal.vnum (3/2), PVal.vnum 2] =
      Except.ok (rowLineSpec ["Time", "Current_A", "Current_B", "Power1"]
        [PVal.vstr "00:00", PVal.vnum 5, PVal.vnum (3/2), PVal.vnum 2])) :=
  ⟨by decide, c5_row_totals _ _ (by decide)⟩

theorem str_foldl_append (l : List String) (g : String → String) :
    ∀ acc : String, l.foldl (fun a v => a ++ g v) acc =
      acc ++ strConcat (l.map g) := by
  induction l with
  | nil => intro acc; simp [strConcat]
  | cons x t ih =>
      intro acc
      simp only [List.foldl_cons, List.map_cons, strConcat, ih,
        String.append_assoc]

theorem headerLine_eq (cols : List String) :
    headerLine cols ++ padTo 20 "Total Current" ++ padTo 20 "Total Power"
      ++ "\n" = headerSpec cols := by
  unfold headerLine headerSpec
  rw [str_foldl_append cols
    (fun val => if val = "Time" then padTo 25 val else padTo 20 val) ""]
  rw [String.empty_append]

theorem rowsFold_cons_ok (cols : List String) (r : List PVal)
    (t : List (List PVal)) (acc l : String) (h : rowLine cols r = Except.ok l) :
    rowsFold cols (r :: t) acc = rowsFold cols t (acc ++ l) := by
  have heq : rowsFold cols (r :: t) acc =
      (match rowLine cols r with
        | Except.error msg => Except.error msg
        | Except.ok l2 => rowsFold cols t (acc ++ l2)) := rfl
  rw [heq, h]

theorem rowsFold_ok (cols : List String) (rows : List (List PVal))
    (h : ∀ row ∈ rows, ∀ e ∈ row.zip cols, e.2 ≠ "Time" → e.1.isNum = true) :
    ∀ acc : String, rowsFold cols rows acc =
      Except.ok (acc ++ strConcat (rows.map (rowLineSpec cols))) := by
  induction rows with
  | nil => intro acc; simp [rowsFold, strConcat]
  | cons r t ih =>
      intro acc
      rw [rowsFold_cons_ok cols r t acc _
        (rowLine_ok cols r (h r (List.mem_cons_self _ _)))]
      rw [ih (fun row hrow => h row (List.mem_cons_of_mem _ hrow))]
      simp only [List.map_cons, strConcat, String.append_assoc]

/-- C7: for every reading table whose non-Time values are numeric,
`make_text` produces exactly one header line (column names left-justified in
20-character fields, Time in a 25-character field, then the Total Current
and Total Power header fields) followed by one line per row (strings in
25-character fields, numbers at two decimals in 20-character fields, the two
derived totals appended at two decimals). -/
theorem c7_report_format (f : Frame)
    (h : ∀ row ∈ f.rows, ∀ e ∈ row.zip f.cols, e.2 ≠ "Time" →
      e.1.isNum = true) :
    makeTextContent f = Except.ok (makeTextSpec f) := by
  unfold makeTextContent makeTextSpec
  rw [rowsFold_ok f.cols f.rows h]
  rw [headerLine_eq f.cols]

theorem c7_report_format_witness :
    (∀ row ∈ (Frame.mk ["Time", "Current1"]
        [[PVal.vstr "00:00", PVal.vnum 2]]).rows,
      ∀ e ∈ row.zip (Frame.mk ["Time", "Current1"]
        [[PVal.vstr "00:00", PVal.vnum 2]]).cols,
      e.2 ≠ "Time" → e.1.isNum = true) ∧
    makeTextContent (Frame.mk ["Time", "Current1"]
        [[PVal.vstr "00:00", PVal.vnum 2]]) =
      Except.ok (makeTextSpec (Frame.mk ["Time", "Current1"]
        [[PVal.vstr "00:00", PVal.vnum 2]])) :=
  ⟨by decide, c7_report_format _ (by decide)⟩

/-! ### Run driver and determinism (claim C8) -/

/-- Python string slice `s[a:b]` (character positions, truncating at the
end of the string as Python slices do). -/
def pySlice (s : String) (a b : Nat) : String :=
  String.mk ((s.data.drop a).take (b - a))

/-- Embedding of `get_file` (lines 35-49):
`plat + date[0:2] + date[3:5] + date[6:10] + '.csv'`. -/
def get_file (date plat : String) : String :=
  plat ++ pySlice date 0 2 ++ pySlice date 3 5 ++ pySlice date 6 10 ++ ".csv"

/-- Embedding of `get_date` (lines 52-66).  The wall clock enters only
here: `today` stands for `date.today().strftime(s)` and is used exactly when
no date argument is given. -/
def get_date (arg : Option String) (today : String) : String :=
  match arg with
  | none => today
  | some d => d

/-- Embedding of the path computed by `set_directory` (lines 69-93):
`directory + date + '/'` (the platform argument does not enter the path). -/
def set_directory (directory date plat : String) : String :=
  directory ++ date ++ "/"

/-- Python `file_name[:-4]` followed by appending the txt extension
(line 110). -/
def textFileName (file_name : String) : String :=
  String.mk (file_name.data.take (file_name.data.length - 4)) ++ ".txt"

/-- The driver path for the text report: resolve the date, build the input
file name and the day directory, and compute the full output path together
with the report content `make_text` writes there.  `today` models the
current wall-clock date, the only run-varying input. -/
def runTextReport (plat : String) (dateArg : Option String)
    (directory : String) (frame : Frame) (today : String) :
    String × Except String String :=
  let d := get_date dateArg today
  let file_name := get_file d plat
  let day_dir := set_directory directory d plat
  (day_dir ++ textFileName file_name, makeTextContent frame)

/-- C8: two runs of the pipeline with identical platform, date argument,
directory and reading table produce byte-for-byte identical report content
at the identical output path, whatever the wall-clock date of either run:
the report embeds no timestamps or other run-varying data. -/
theorem c8_rerun_deterministic (plat d directory : String) (frame : Frame)
    (today1 today2 : String) :
    runTextReport plat (some d) directory frame today1 =
      runTextReport plat (some d) directory frame today2 := rfl

/-! ### `make_text` does not modify the table (claim C10) -/

/-- Read access `frame.columns` (line 119): returns the column names and
leaves the frame as is. -/
def frame_columns (f : Frame) : List String × Frame := (f.cols, f)

/-- Read access `frame.iterrows()` (line 129): returns the rows and leaves
the frame as is. -/
def frame_iterrows (f : Frame) : List (List PVal) × Frame := (f.rows, f)

/-- The whole `make_text` call together with the frame as the caller sees
it afterwards.  The source only performs the two read accesses above on the
frame (its remaining statements touch locals and the output file), so the
embedding threads the frame through exactly those accesses. -/
def make_text_run (f : Frame) : Except String String × Frame :=
  let p1 := frame_columns f
  let p2 := frame_iterrows p1.2
  (makeTextContent ⟨p1.1, p2.1⟩, p2.2)

/-- C10: `make_text` leaves the reading table unchanged: the frame after
the call equals the frame before it, and the content computed is that of
the unmodified frame, so the later chart is rendered from the same data. -/
theorem c10_frame_unchanged (f : Frame) :
    (make_text_run f).2 = f ∧ (make_text_run f).1 = makeTextContent f :=
  ⟨rfl, rfl⟩

/-! ### The classifier error path (claim C4) -/

/-- A Python value that may appear in a column list: a string, or a
non-string (an int, say), on which the substring test raises TypeError. -/
inductive PyObj where
  | pstr (s : String)
  | pint (n : Int)
  deriving Repr, DecidableEq

/-- One loop iteration of `get_plot_params` on an arbitrary Python value:
on a string it is `stepCol`; on a non-string the very first membership test
`if 'PM' in val:` (line 178) raises TypeError before the state changes. -/
def stepColPy (st : ScanState) (val : PyObj) : Except String ScanState :=
  match val with
  | PyObj.pstr s => Except.ok (stepCol st s)
  | PyObj.pint _ => Except.error "TypeError: argument of type int is not iterable"

/-- The scan loop over arbitrary Python values. -/
def scanColsPy : List PyObj → ScanState → Except String ScanState
  | [], st => Except.ok st
  | v :: t, st =>
      match stepColPy st v with
      | Except.error msg => Except.error msg
      | Except.ok st2 => scanColsPy t st2

/-- Embedding of the whole `get_plot_params` call on arbitrary column
values.  When the scan succeeds, line 222 binds `plot_params` and line 229
returns the pair.  When the scan raises, the except block of lines 225-227
catches and logs the exception, but `plot_params` is assigned only inside
the try block, so the subsequent `return plot_count, plot_params` itself
raises UnboundLocalError: the caller receives an exception, not a partial
result. -/
def get_plot_params_py (cols : List PyObj) :
    Except String (Nat × List (String × Nat)) :=
  match scanColsPy cols initState with
  | Except.ok st => Except.ok (st.plot_count, st.counted_list.zip st.plot_num)
  | Except.error _ =>
      Except.error
        "UnboundLocalError: local variable plot_params referenced before assignment"

/-- C4 counter-evidence: on a column list containing a non-string value the
scan body fails, and the call raises rather than returning the partial
panel count and assignment: the except block swallows the TypeError, but the
return statement then raises UnboundLocalError because `plot_params` was
never assigned. -/
theorem c4_code_eval :
    get_plot_params_py [PyObj.pstr "Time", PyObj.pint 3] =
      Except.error
        "UnboundLocalError: local variable plot_params referenced before assignment" :=
  rfl
